import Mathlib

/-
  Shallow embedding of src/ec2_monitor.py: an EC2 monitoring script that
  provisions CloudWatch alarms, collects metrics every minute into a
  newline-delimited JSON log, and publishes a weekly digest over SNS.
  Definitions are translated from the Python source; theorems settle the
  specification claims about it.
-/

set_option autoImplicit false

namespace EC2Monitor

/-- JSON values as Python json module produces them; object fields keep the
insertion order of the Python dict that was serialized. -/
inductive Json where
  | null : Json
  | num : ℚ → Json
  | str : String → Json
  | arr : List Json → Json
  | obj : List (String × Json) → Json
deriving Inhabited

/-- Python dict assignment m[k] = v: if the key is present its value is
replaced in place, otherwise the pair is appended at the end. -/
def insertKey {α : Type} (m : List (String × α)) (k : String) (v : α) :
    List (String × α) :=
  match m with
  | [] => [(k, v)]
  | (k0, v0) :: rest =>
      if k0 = k then (k0, v) :: rest else (k0, v0) :: insertKey rest k v

/-- Python dict lookup m[k] on an association list (first binding wins). -/
def lookupKey {α : Type} (m : List (String × α)) (k : String) : Option α :=
  match m with
  | [] => none
  | (k0, v0) :: rest => if k0 = k then some v0 else lookupKey rest k

/-- The configuration document loaded from configurations/config.json.
The source reads the keys region, instances, stats, thresholds, email,
log_file, metrics, data_file, sns_topic_name and error_topic_arn; note that
the collector writes the file named by the key "metrics" while the weekly
reporter reads the file named by the separate key "data_file". Each
threshold entry is itself a string-keyed map (the source reads the keys
"amber" and "red" in it). -/
structure Config where
  region : String
  instances : List String
  stats : List String
  thresholds : List (String × List (String × ℚ))
  email : String
  log_file : String
  metrics : String
  data_file : String
  sns_topic_name : String
  error_topic_arn : String
deriving Repr, DecidableEq

/-- The argument record of one cloudwatch.put_metric_alarm call in
create_alarms (src/ec2_monitor.py lines 69-92). -/
structure AlarmSpec where
  alarmName : String
  metricName : String
  nameSpace : String
  statistic : String
  period : Nat
  evaluationPeriods : Nat
  threshold : ℚ
  comparisonOperator : String
  alarmActions : List String
  dimensions : List (String × String)
deriving Repr, DecidableEq

/-- config.thresholds[stat][key]; Python raises KeyError when a key is
missing, modelled as none. -/
def lookupThreshold (cfg : Config) (stat key : String) : Option ℚ :=
  (lookupKey cfg.thresholds stat).bind (fun m => lookupKey m key)

/-- The amber alarm registered for one (instance, stat) pair
(src/ec2_monitor.py lines 69-80). -/
def amberAlarm (topicArn instance_id stat : String) (t : ℚ) : AlarmSpec :=
  { alarmName := instance_id ++ "_" ++ stat ++ "_Amber_Alarm"
    metricName := stat
    nameSpace := "AWS/EC2"
    statistic := "Average"
    period := 60
    evaluationPeriods := 1
    threshold := t
    comparisonOperator := "GreaterThanThreshold"
    alarmActions := [topicArn]
    dimensions := [("InstanceId", instance_id)] }

/-- The red alarm registered for one (instance, stat) pair
(src/ec2_monitor.py lines 81-92). -/
def redAlarm (topicArn instance_id stat : String) (t : ℚ) : AlarmSpec :=
  { alarmName := instance_id ++ "_" ++ stat ++ "_Red_Alarm"
    metricName := stat
    nameSpace := "AWS/EC2"
    statistic := "Average"
    period := 60
    evaluationPeriods := 1
    threshold := t
    comparisonOperator := "GreaterThanThreshold"
    alarmActions := [topicArn]
    dimensions := [("InstanceId", instance_id)] }

/-- The two put_metric_alarm calls made for one (instance, stat) pair.
A missing threshold key raises KeyError in Python (none here), which the
except ClientError clause does not catch, so it aborts create_alarms. -/
def alarmPair (cfg : Config) (topicArn instance_id stat : String) :
    Option (List AlarmSpec) :=
  (lookupThreshold cfg stat "amber").bind (fun amber =>
    (lookupThreshold cfg stat "red").map (fun red =>
      [amberAlarm topicArn instance_id stat amber,
       redAlarm topicArn instance_id stat red]))

/-- Sequential traversal collecting results, stopping at the first failing
element, as a Python for loop over calls that may raise does. -/
def mapOption {α β : Type} (f : α → Option β) : List α → Option (List β)
  | [] => some []
  | x :: xs => (f x).bind (fun y => (mapOption f xs).map (fun ys => y :: ys))

/-- create_alarms (src/ec2_monitor.py lines 64-98): for every instance and
every stat, in configured order, register the amber then the red alarm.
The returned list is the sequence of put_metric_alarm argument records;
none models the KeyError abort on a missing threshold key. -/
def create_alarms (cfg : Config) (topicArn : String) :
    Option (List AlarmSpec) :=
  (mapOption (fun instance_id =>
      (mapOption (fun stat => alarmPair cfg topicArn instance_id stat)
          cfg.stats).map List.flatten)
    cfg.instances).map List.flatten

/-- The full put_metric_alarm sequence when every threshold lookup
succeeds: for each instance then each stat, the amber and the red alarm. -/
def allAlarms (cfg : Config) (topicArn : String) : List AlarmSpec :=
  (cfg.instances.map (fun i =>
      (cfg.stats.map (fun s =>
          [amberAlarm topicArn i s ((lookupThreshold cfg s "amber").getD 0),
           redAlarm topicArn i s ((lookupThreshold cfg s "red").getD 0)])).flatten)).flatten

/-- A UTC wall-clock instant as datetime.utcnow returns it (naive datetime:
no timezone attached). -/
structure DateTime where
  year : Nat
  month : Nat
  day : Nat
  hour : Nat
  minute : Nat
  second : Nat
  microsecond : Nat
deriving Repr, DecidableEq

/-- Chronological order on DateTime, lexicographic on the fields. -/
def dtLe (a b : DateTime) : Prop :=
  (a.year, a.month, a.day, a.hour, a.minute, a.second, a.microsecond) ≤
    (b.year, b.month, b.day, b.hour, b.minute, b.second, b.microsecond)

instance (a b : DateTime) : Decidable (dtLe a b) := by
  unfold dtLe; infer_instance

/-- Decimal digit character: 0 ↦ the character 0, ..., 9 ↦ the character 9. -/
def digitChar (d : Nat) : Char := Char.ofNat (48 + d)

/-- Decimal digits of n accumulated onto acc; the first argument is fuel
bounding the number of digits, so the recursion is structural. -/
def natStrAux : Nat → Nat → List Char → List Char
  | 0, _, acc => acc
  | _ + 1, 0, acc => acc
  | fuel + 1, n, acc => natStrAux fuel (n / 10) (digitChar (n % 10) :: acc)

/-- Decimal rendering of a natural number. -/
def natStr (n : Nat) : String :=
  if n = 0 then "0" else String.mk (natStrAux n n [])

/-- Zero-padded two-digit field, as datetime.isoformat renders it. -/
def pad2 (n : Nat) : String := if n < 10 then "0" ++ natStr n else natStr n

/-- Zero-padded four-digit year field. -/
def pad4 (n : Nat) : String :=
  if n < 10 then "000" ++ natStr n
  else if n < 100 then "00" ++ natStr n
  else if n < 1000 then "0" ++ natStr n
  else natStr n

/-- Zero-padded six-digit microsecond field. -/
def pad6 (n : Nat) : String :=
  if n < 10 then "00000" ++ natStr n
  else if n < 100 then "0000" ++ natStr n
  else if n < 1000 then "000" ++ natStr n
  else if n < 10000 then "00" ++ natStr n
  else if n < 100000 then "0" ++ natStr n
  else natStr n

/-- Python str(datetime): isoformat with a SPACE separator between the date
and the time, and the .ffffff microsecond suffix omitted when the
microsecond field is zero. This is what str(end_time) produces at
src/ec2_monitor.py line 104. -/
def pyStr (d : DateTime) : String :=
  pad4 d.year ++ "-" ++ pad2 d.month ++ "-" ++ pad2 d.day ++ " " ++
    pad2 d.hour ++ ":" ++ pad2 d.minute ++ ":" ++ pad2 d.second ++
    (if d.microsecond = 0 then "" else "." ++ pad6 d.microsecond)

/-- One CloudWatch datapoint as get_metric_statistics returns it; the source
only reads the Average field, the Timestamp field records the position of
the datapoint in time. -/
structure Datapoint where
  timestamp : Int
  average : ℚ
deriving Repr, DecidableEq

/-- Outcome of one cloudwatch.get_metric_statistics call: either a Datapoints
list (possibly empty, and in no particular time order), or a ClientError. -/
inductive ProviderResult where
  | ok : List Datapoint → ProviderResult
  | clientError : String → ProviderResult
deriving Repr, DecidableEq

/-- Observable side effects of a run, in program order. notified models one
notify_stakeholders attempt (itself best-effort: an SNS failure inside it is
only logged, never raised); logError models one logging.error call;
published models one direct sns.publish of a summary message. -/
inductive Event where
  | notified : String → Event
  | logError : String → Event
  | published : String → String → String → Event
deriving Repr, DecidableEq

/-- Environment of one collection tick: the wall clock at the start of the
tick, the provider response for each (instance, stat) pair, and whether the
append to the metrics file raises IOError (some e) or succeeds (none). -/
structure TickEnv where
  now : DateTime
  provider : String → String → ProviderResult
  writeError : Option String

/-- The error text used at src/ec2_monitor.py lines 127-129. -/
def statErrMsg (stat instance_id e : String) : String :=
  "Error getting metric statistics for " ++ stat ++ " on " ++ instance_id ++
    ": " ++ e

/-- The per-stat body of record_metrics (src/ec2_monitor.py lines 109-130):
a nonempty Datapoints list yields the Average field of its first element; an
empty list records null with no notification; a ClientError records null
after logging and a best-effort notification. -/
def statResult (env : TickEnv) (instance_id stat : String) :
    Json × List Event :=
  match env.provider instance_id stat with
  | ProviderResult.ok [] => (Json.null, [])
  | ProviderResult.ok (dp :: _) => (Json.num dp.average, [])
  | ProviderResult.clientError e =>
      (Json.null,
       [Event.logError (statErrMsg stat instance_id e),
        Event.notified (statErrMsg stat instance_id e)])

/-- The stats dict of one instance entry, built by Python dict assignment
over config stats in order (src/ec2_monitor.py lines 108-130). -/
def instanceStats (env : TickEnv) (instance_id : String)
    (stats : List String) : List (String × Json) × List Event :=
  stats.foldl
    (fun acc stat =>
      let r := statResult env instance_id stat
      (insertKey acc.1 stat r.1, acc.2 ++ r.2))
    ([], [])

/-- The first component of instanceStats in isolation: the stats dict as a
fold of dict assignments. -/
def statsMapFold (env : TickEnv) (i : String) (stats : List String)
    (m0 : List (String × Json)) : List (String × Json) :=
  stats.foldl (fun m s => insertKey m s (statResult env i s).1) m0

/-- One element of the metrics list: the instance_metrics dict of
src/ec2_monitor.py line 107, after the stats loop has filled it. -/
def instanceEntry (env : TickEnv) (instance_id : String)
    (stats : List String) : Json :=
  Json.obj
    [("instance_id", Json.str instance_id),
     ("stats", Json.obj (instanceStats env instance_id stats).1)]

/-- The metrics_data dict of one tick (src/ec2_monitor.py lines 104-131):
timestamp is str(datetime.utcnow()) and metrics holds one entry per
configured instance, in configured order. -/
def tickJson (cfg : Config) (env : TickEnv) : Json :=
  Json.obj
    [("timestamp", Json.str (pyStr env.now)),
     ("metrics",
      Json.arr (cfg.instances.map (fun i => instanceEntry env i cfg.stats)))]

/-- The per-item events of one tick, in the order the loops emit them. -/
def tickEvents (cfg : Config) (env : TickEnv) : List Event :=
  (cfg.instances.map
      (fun i => (instanceStats env i cfg.stats).2)).flatten

/-- The filesystem, path ↦ parsed lines: each element is the JSON document
on one line of the file (the serializer emits no raw newline, see
dumpJson_no_newline, so one appended document is one line). -/
def FS : Type := String → List Json

/-- The write-failure error text of src/ec2_monitor.py lines 140-141. -/
def writeErrMsg (e : String) : String :=
  "Error writing metrics data to file: " ++ e

/-- record_metrics (src/ec2_monitor.py lines 101-142): gather all stats for
all instances, then append the single record to the file named by the
config key "metrics". On IOError the tick logs, notifies best-effort and
re-raises (Except.error). -/
def record_metrics (cfg : Config) (env : TickEnv) (fs : FS) :
    FS × List Event × Except String Unit :=
  match env.writeError with
  | none =>
      (fun p => if p = cfg.metrics then fs p ++ [tickJson cfg env] else fs p,
       tickEvents cfg env, Except.ok ())
  | some e =>
      (fs,
       tickEvents cfg env ++
         [Event.logError (writeErrMsg e), Event.notified (writeErrMsg e)],
       Except.error (writeErrMsg e))

/-- N consecutive successful-or-not collection ticks, ignoring raised
errors: used to describe the log contents when all writes succeed. -/
def runTicks (cfg : Config) : List TickEnv → FS → FS
  | [], fs => fs
  | env :: rest, fs => runTicks cfg rest (record_metrics cfg env fs).1

/-- The scheduler loop of main (src/ec2_monitor.py lines 196-198) driving
the per-minute record_metrics job, one list element per due tick. The
schedule library does not catch exceptions raised by jobs, so a raising
job propagates out of schedule.run_pending, and the bare while True in
main does not catch it either: the loop, and the process, terminate. The
Bool result is true when the loop is still alive after the given ticks,
and the Nat counts the ticks that actually started. -/
def mainLoop (cfg : Config) : List TickEnv → FS → FS × List Event × Nat × Bool
  | [], fs => (fs, [], 0, true)
  | env :: rest, fs =>
      let r := record_metrics cfg env fs
      match r.2.2 with
      | Except.ok _ =>
          let k := mainLoop cfg rest r.1
          (k.1, r.2.1 ++ k.2.1, k.2.2.1 + 1, k.2.2.2)
      | Except.error _ => (r.1, r.2.1, 1, false)

/-- Hexadecimal digit character for the unicode escapes of json.dump. -/
def hexDigit (n : Nat) : Char :=
  if n < 10 then Char.ofNat (48 + n) else Char.ofNat (87 + n)

/-- A four-hex-digit unicode escape sequence. -/
def uEscape (n : Nat) : String :=
  "\\u" ++
    String.mk
      [hexDigit (n / 4096 % 16), hexDigit (n / 256 % 16),
       hexDigit (n / 16 % 16), hexDigit (n % 16)]

/-- One character as json.dump (default ensure_ascii) writes it inside a
string literal. -/
def escChar (c : Char) : String :=
  if c = Char.ofNat 34 then "\\\""
  else if c = Char.ofNat 92 then "\\\\"
  else if c = Char.ofNat 10 then "\\n"
  else if c = Char.ofNat 13 then "\\r"
  else if c = Char.ofNat 9 then "\\t"
  else if c = Char.ofNat 8 then "\\b"
  else if c = Char.ofNat 12 then "\\f"
  else if c.toNat < 32 ∨ 126 < c.toNat then uEscape c.toNat
  else String.mk [c]

/-- A string body as json.dump writes it (without the enclosing quotes):
the concatenation of the escapes of its characters. -/
def escString (s : String) : String :=
  s.data.foldr (fun c acc => escChar c ++ acc) ""

/-- Decimal-style rendering of a rational number (digits, minus sign, dot
or slash). It stands in for Python float repr; only the characters used
matter to the claims (one line per record), not the digit sequence. -/
def renderRat (q : ℚ) : String :=
  (if q.num < 0 then "-" else "") ++
    (if q.den = 1 then natStr q.num.natAbs ++ ".0"
     else natStr q.num.natAbs ++ "/" ++ natStr q.den)

mutual

/-- json.dump with default separators: one JSON document, no newline ever
emitted (see dumpJson_no_newline). -/
def dumpJson : Json → String
  | Json.null => "null"
  | Json.num q => renderRat q
  | Json.str s => "\"" ++ escString s ++ "\""
  | Json.arr l => "[" ++ dumpArr l ++ "]"
  | Json.obj m => "\x7b" ++ dumpObj m ++ "\x7d"

/-- Comma-separated array elements. -/
def dumpArr : List Json → String
  | [] => ""
  | [j] => dumpJson j
  | j :: j2 :: rest => dumpJson j ++ ", " ++ dumpArr (j2 :: rest)

/-- Comma-separated key: value object members. -/
def dumpObj : List (String × Json) → String
  | [] => ""
  | [(k, v)] => "\"" ++ escString k ++ "\": " ++ dumpJson v
  | (k, v) :: kv :: rest =>
      "\"" ++ escString k ++ "\": " ++ dumpJson v ++ ", " ++
        dumpObj (kv :: rest)

end

/-- A legal stats value in the log schema: a number or the explicit null. -/
def isStatsVal : Json → Bool
  | Json.null => true
  | Json.num _ => true
  | _ => false

/-- Whether a JSON value is null (Python: is None). -/
def isNull : Json → Bool
  | Json.null => true
  | _ => false

/-- One element of the metrics list in the log schema:
an object with an instance_id string and a stats map of number-or-null. -/
def isInstanceEntry : Json → Bool
  | Json.obj [("instance_id", Json.str _), ("stats", Json.obj stats)] =>
      stats.all (fun kv => isStatsVal kv.2)
  | _ => false

/-- The schema of one metrics-log line: an object with a timestamp string
and a metrics array of instance entries. -/
def metricRecordSchema : Json → Bool
  | Json.obj [("timestamp", Json.str _), ("metrics", Json.arr l)] =>
      l.all isInstanceEntry
  | _ => false

/-- Field access on a JSON object. -/
def jsonField (j : Json) (k : String) : Option Json :=
  match j with
  | Json.obj m => lookupKey m k
  | _ => none

/-- Python subscription d[k] on a dict: KeyError when absent. This error
kind is not a ClientError, so the reporter does not catch it. -/
def objGet (j : Json) (k : String) : Except String Json :=
  match j with
  | Json.obj m =>
      match lookupKey m k with
      | some v => Except.ok v
      | none => Except.error ("KeyError: " ++ k)
  | _ => Except.error "TypeError: not a dict"

/-- Python subscription l[n] on a list: IndexError when out of range. -/
def arrGet (j : Json) (n : Nat) : Except String Json :=
  match j with
  | Json.arr l =>
      match l[n]? with
      | some v => Except.ok v
      | none => Except.error "IndexError: list index out of range"
  | _ => Except.error "TypeError: not a list"

/-- The expression entry[metrics][0][stats][stat] of src/ec2_monitor.py
line 152, with each Python subscription able to raise. -/
def lineStatValue (entry : Json) (stat : String) : Except String Json := do
  let m ← objGet entry "metrics"
  let e0 ← arrGet m 0
  let st ← objGet e0 "stats"
  objGet st stat

/-- The list comprehension of src/ec2_monitor.py line 152: the value of one
stat in the first metrics entry of each parsed line, keeping only
non-None values; any raising subscription aborts the whole comprehension. -/
def collectValues (data : List Json) (stat : String) :
    Except String (List Json) :=
  match data with
  | [] => Except.ok []
  | entry :: rest => do
      let v ← lineStatValue entry stat
      let vs ← collectValues rest stat
      pure (if isNull v then vs else v :: vs)

/-- The collected values must be numbers for max, min and sum to apply;
Python would raise a TypeError on other shapes. -/
def toNums : List Json → Except String (List ℚ)
  | [] => Except.ok []
  | Json.num q :: rest => (toNums rest).map (fun l => q :: l)
  | _ :: _ => Except.error "TypeError: not a number"

/-- The weekly_summary dict of src/ec2_monitor.py lines 150-158: for each
configured stat in order, collect the non-None values; when the list is
nonempty record high = max(values), low = min(values),
average = sum(values) / len(values), otherwise skip the stat. -/
def summarize (cfg : Config) (data : List Json) :
    Except String (List (String × ℚ × ℚ × ℚ)) :=
  cfg.stats.foldlM
    (fun acc stat => do
      let raw ← collectValues data stat
      match raw with
      | [] => pure acc
      | _ :: _ => do
          let vals ← toNums raw
          match vals with
          | [] => pure acc
          | v :: vs =>
              pure
                (insertKey acc stat
                  (vs.foldl max v, vs.foldl min v,
                   (v :: vs).sum / ((v :: vs).length : ℚ))))
    []

/-- The per-stat block of the summary message
(src/ec2_monitor.py line 162). -/
def formatEntry (stat : String) (s : ℚ × ℚ × ℚ) : String :=
  "\n" ++ stat ++ ":\n  High: " ++ renderRat s.1 ++ "\n  Low: " ++
    renderRat s.2.1 ++ "\n  Average: " ++ renderRat s.2.2

/-- The summary_message of src/ec2_monitor.py lines 160-162: built from the
weekly_summary entries only, so an omitted stat contributes nothing. -/
def formatMessage (digest : List (String × ℚ × ℚ × ℚ)) : String :=
  "Weekly Summary:\n" ++
    String.join (digest.map (fun kv => formatEntry kv.1 kv.2))

/-- The publish error text of src/ec2_monitor.py line 171. -/
def summaryErrMsg (e : String) : String :=
  "Error sending weekly summary: " ++ e

/-- Environment of one weekly report: whether sns.publish raises a
ClientError. -/
structure ReportEnv where
  publishError : Option String

/-- send_weekly_summary (src/ec2_monitor.py lines 145-174): parse every
line of the file named by the config key "data_file", aggregate, format
and publish. The except clause catches only ClientError, so a KeyError or
IndexError raised while aggregating propagates as-is, before anything is
published; a ClientError from publish is logged and notified, then
re-raised. -/
def send_weekly_summary (cfg : Config) (fs : FS) (topic_arn : String)
    (renv : ReportEnv) : List Event × Except String Unit :=
  match summarize cfg (fs cfg.data_file) with
  | Except.error e => ([], Except.error e)
  | Except.ok digest =>
      match renv.publishError with
      | none =>
          ([Event.published topic_arn "Weekly EC2 Metrics Summary"
              (formatMessage digest)],
           Except.ok ())
      | some e =>
          ([Event.logError (summaryErrMsg e),
            Event.notified (summaryErrMsg e)],
           Except.error (summaryErrMsg e))

/-- Modelled from the words of the specification (section 6): an ISO 8601
combined date-and-time string in the extended format, whose date and time
components are separated by the literal character T. Used only to compare
the specified timestamp format against the one the code writes. -/
def isoCombined (s : String) : Bool :=
  decide (19 ≤ s.data.length) &&
    (List.range 19).all (fun i =>
      match s.data[i]? with
      | none => false
      | some c =>
          if i = 4 ∨ i = 7 then c == Char.ofNat 45
          else if i = 10 then c == 'T'
          else if i = 13 ∨ i = 16 then c == Char.ofNat 58
          else c.isDigit)

/-- The value entry[metrics][0][stats][stat] when every subscription
succeeds, skipping lines that would raise: the total companion of
collectValues used to state what the reporter computes on well-formed
history. -/
def pureValues (data : List Json) (stat : String) : List Json :=
  match data with
  | [] => []
  | j :: rest =>
      match lineStatValue j stat with
      | Except.ok v =>
          if isNull v then pureValues rest stat else v :: pureValues rest stat
      | Except.error _ => pureValues rest stat

/-- The numeric values among pureValues. -/
def pureRats (data : List Json) (stat : String) : List ℚ :=
  (pureValues data stat).filterMap
    (fun v => match v with | Json.num q => some q | _ => none)

/-- high, low and average of a nonempty value list, exactly as
src/ec2_monitor.py lines 154-158 computes them. -/
def summaryOf : List ℚ → ℚ × ℚ × ℚ
  | [] => (0, 0, 0)
  | v :: vs =>
      (vs.foldl max v, vs.foldl min v, (v :: vs).sum / ((v :: vs).length : ℚ))

/-- The weekly_summary dict built over a stat list, total version. -/
def digestFold (data : List Json) (stats : List String)
    (acc : List (String × ℚ × ℚ × ℚ)) : List (String × ℚ × ℚ × ℚ) :=
  match stats with
  | [] => acc
  | s :: rest =>
      digestFold data rest
        (match pureRats data s with
         | [] => acc
         | _ :: _ => insertKey acc s (summaryOf (pureRats data s)))

/-- The digest the reporter computes on well-formed history. -/
def digestOf (cfg : Config) (data : List Json) :
    List (String × ℚ × ℚ × ℚ) :=
  digestFold data cfg.stats []

/-- The stats dict of the first metrics entry of a parsed line,
entry[metrics][0][stats], with each subscription able to raise: the common
prefix of the reporter subscript chain. -/
def firstStats (j : Json) : Except String Json := do
  let m ← objGet j "metrics"
  let e0 ← arrGet m 0
  objGet e0 "stats"

/-- A log line on which every subscription performed by the reporter
succeeds for every configured stat, yielding a number or null. -/
def wellFormedLine (cfg : Config) (j : Json) : Bool :=
  match firstStats j with
  | Except.ok (Json.obj sm) =>
      cfg.stats.all (fun s =>
        match lookupKey sm s with
        | some v => isStatsVal v
        | none => false)
  | _ => false

/-- Shape of one instance entry of a MetricRecord: the instance id, and one
value (number or explicit null) for exactly the configured stats. -/
def entryShape (stats : List String) (i : String) (e : Json) : Prop :=
  ∃ m, e = Json.obj [("instance_id", Json.str i), ("stats", Json.obj m)]
    ∧ (m.map Prod.fst).Nodup
    ∧ (∀ s, s ∈ m.map Prod.fst ↔ s ∈ stats)
    ∧ ∀ kv ∈ m, isStatsVal kv.2 = true

/-- What one completed collection tick guarantees: exactly one record is
appended to the metrics file, the tick reports success, and the record has
one entry per configured instance, each with one value per configured
stat. -/
def completedTick (cfg : Config) (env : TickEnv) (fs : FS) : Prop :=
  (record_metrics cfg env fs).1 cfg.metrics = fs cfg.metrics ++ [tickJson cfg env]
  ∧ (record_metrics cfg env fs).2.2 = Except.ok ()
  ∧ ∃ entries, jsonField (tickJson cfg env) "metrics" = some (Json.arr entries)
      ∧ List.Forall₂ (entryShape cfg.stats) cfg.instances entries

/-- The per-item policy of the collector: an empty datapoint list records
null and emits nothing; a ClientError records null after a log line and a
best-effort notification naming the (instance, stat) pair. -/
def perItemPolicy (env : TickEnv) (i s : String) : Prop :=
  (env.provider i s = ProviderResult.ok [] → statResult env i s = (Json.null, []))
  ∧ ∀ e, env.provider i s = ProviderResult.clientError e →
      statResult env i s =
        (Json.null,
         [Event.logError (statErrMsg s i e), Event.notified (statErrMsg s i e)])

/-- What a run of completed ticks leaves in the metrics file: one record
per tick in tick order, each matching the schema and serializing to a
single newline-free line, with the tick instants in chronological order. -/
def logFacts (cfg : Config) (envs : List TickEnv) (fs0 : FS) : Prop :=
  runTicks cfg envs fs0 cfg.metrics = envs.map (fun e => tickJson cfg e)
  ∧ (runTicks cfg envs fs0 cfg.metrics).length = envs.length
  ∧ (∀ e ∈ envs,
      metricRecordSchema (tickJson cfg e) = true
      ∧ jsonField (tickJson cfg e) "timestamp" = some (Json.str (pyStr e.now))
      ∧ '\n' ∉ (dumpJson (tickJson cfg e)).data)
  ∧ List.Chain' dtLe (envs.map TickEnv.now)

/-- A concrete configuration, matching the shapes the source reads. -/
def cfgEx : Config :=
  { region := "eu-west-2"
    instances := ["i-1"]
    stats := ["CPUUtilization"]
    thresholds := [("CPUUtilization", [("amber", 70), ("red", 90)])]
    email := "ops@example.com"
    log_file := "monitoring.log"
    metrics := "metrics.json"
    data_file := "data.json"
    sns_topic_name := "ec2-monitoring"
    error_topic_arn := "arn:error" }

/-- The configuration the claim about provisioning describes: a threshold
map with the keys warning and critical. -/
def cfgWarnCrit : Config :=
  { cfgEx with thresholds := [("CPUUtilization", [("warning", 70), ("critical", 90)])] }

/-- A two-stat configuration for the weekly digest claims. -/
def cfgTwoStats : Config :=
  { cfgEx with
      stats := ["CPUUtilization", "DiskReadOps"]
      thresholds :=
        [("CPUUtilization", [("amber", 70), ("red", 90)]),
         ("DiskReadOps", [("amber", 100), ("red", 200)])] }

/-- A datapoint dated later than dpOld. -/
def dpNew : Datapoint := { timestamp := 100, average := 37 / 2 }

/-- A datapoint dated earlier than dpNew. -/
def dpOld : Datapoint := { timestamp := 40, average := 5 }

/-- A tick whose provider returns two datapoints, the later one first. -/
def envData : TickEnv :=
  { now := { year := 2024, month := 1, day := 2, hour := 3, minute := 4, second := 5, microsecond := 0 }
    provider := fun _ _ => ProviderResult.ok [dpNew, dpOld]
    writeError := none }

/-- A tick whose provider returns an empty datapoint list. -/
def envEmpty : TickEnv :=
  { now := { year := 2024, month := 1, day := 2, hour := 3, minute := 5, second := 5, microsecond := 0 }
    provider := fun _ _ => ProviderResult.ok []
    writeError := none }

/-- A tick whose provider raises a ClientError. -/
def envErr : TickEnv :=
  { now := { year := 2024, month := 1, day := 2, hour := 3, minute := 6, second := 5, microsecond := 0 }
    provider := fun _ _ => ProviderResult.clientError "boom"
    writeError := none }

/-- A tick whose metrics-file append raises IOError. -/
def envFail : TickEnv :=
  { now := { year := 2024, month := 1, day := 2, hour := 3, minute := 7, second := 5, microsecond := 0 }
    provider := fun _ _ => ProviderResult.ok [dpNew, dpOld]
    writeError := some "disk full" }

/-- A second healthy tick, one minute after envData. -/
def envData2 : TickEnv :=
  { now := { year := 2024, month := 1, day := 2, hour := 3, minute := 8, second := 5, microsecond := 0 }
    provider := fun _ _ => ProviderResult.ok [dpOld]
    writeError := none }

/-- The empty filesystem. -/
def fsEmpty : FS := fun _ => []

/-- A well-formed historical log line with the given CPUUtilization value
and a null DiskReadOps value. -/
def mkLine (cpu : Json) : Json :=
  Json.obj
    [("timestamp", Json.str "2024-01-01 00:00:00"),
     ("metrics",
      Json.arr
        [Json.obj
          [("instance_id", Json.str "i-1"),
           ("stats", Json.obj [("CPUUtilization", cpu), ("DiskReadOps", Json.null)])]])]

/-- Three historical records with CPUUtilization values 10, 20, 30 and no
DiskReadOps data at all. -/
def dataEx : List Json := [mkLine (Json.num 10), mkLine (Json.num 20), mkLine (Json.num 30)]

/-- A filesystem holding the three-record history at the path the reporter
reads. -/
def fsData : FS := fun p => if p = "data.json" then dataEx else []

/-- A log line whose metrics list is empty. -/
def badLine : Json :=
  Json.obj [("timestamp", Json.str "t"), ("metrics", Json.arr [])]

/-- A filesystem whose history contains the malformed line. -/
def fsBad : FS := fun p => if p = "data.json" then [badLine] else []

/-- The filesystem after one completed tick against the empty filesystem. -/
def fsAfterTick : FS := (record_metrics cfgEx envData fsEmpty).1

/-! Association-list lemmas about the Python dict model. -/

theorem lookup_insert_self {α : Type} (m : List (String × α)) (k : String)
    (v : α) : lookupKey (insertKey m k v) k = some v := by
  induction m with
  | nil => simp [insertKey, lookupKey]
  | cons kv rest ih =>
      obtain ⟨k0, v0⟩ := kv
      by_cases h : k0 = k
      · simp [insertKey, lookupKey, h]
      · simp [insertKey, lookupKey, h, ih]

theorem lookup_insert_other {α : Type} (m : List (String × α)) (k k2 : String)
    (v : α) (h : k2 ≠ k) :
    lookupKey (insertKey m k v) k2 = lookupKey m k2 := by
  have hk : k ≠ k2 := Ne.symm h
  induction m with
  | nil => simp [insertKey, lookupKey, hk]
  | cons kv rest ih =>
      obtain ⟨k0, v0⟩ := kv
      by_cases h0 : k0 = k
      · subst h0
        simp [insertKey, lookupKey, hk]
      · simp [insertKey, lookupKey, h0, ih]

theorem keys_insert {α : Type} (m : List (String × α)) (k : String) (v : α) :
    (insertKey m k v).map Prod.fst =
      if k ∈ m.map Prod.fst then m.map Prod.fst else m.map Prod.fst ++ [k] := by
  induction m with
  | nil => simp [insertKey]
  | cons kv rest ih =>
      obtain ⟨k0, v0⟩ := kv
      by_cases h : k0 = k
      · simp [insertKey, h]
      · simp only [insertKey, if_neg h, List.map_cons, ih]
        by_cases hm : k ∈ rest.map Prod.fst
        · simp [hm, Ne.symm h]
        · simp [hm, Ne.symm h]

theorem mem_insert {α : Type} (m : List (String × α)) (k : String) (v : α)
    (kv : String × α) (h : kv ∈ insertKey m k v) : kv = (k, v) ∨ kv ∈ m := by
  induction m with
  | nil => simpa [insertKey] using h
  | cons kv0 rest ih =>
      obtain ⟨k0, v0⟩ := kv0
      by_cases h0 : k0 = k
      · subst h0
        rcases (by simpa [insertKey] using h : kv = (k0, v) ∨ kv ∈ rest) with h1 | h1
        · exact Or.inl h1
        · exact Or.inr (List.mem_cons_of_mem _ h1)
      · rcases (by simpa [insertKey, h0] using h :
            kv = (k0, v0) ∨ kv ∈ insertKey rest k v) with h1 | h1
        · exact Or.inr (by simp [h1])
        · rcases ih h1 with h2 | h2
          · exact Or.inl h2
          · exact Or.inr (List.mem_cons_of_mem _ h2)

theorem lookup_eq_none_iff {α : Type} (m : List (String × α)) (k : String) :
    lookupKey m k = none ↔ k ∉ m.map Prod.fst := by
  induction m with
  | nil => simp [lookupKey]
  | cons kv rest ih =>
      obtain ⟨k0, v0⟩ := kv
      by_cases h : k0 = k
      · simp [lookupKey, h]
      · simp [lookupKey, h, ih, Ne.symm h]

/-! Lemmas about the stats dict one tick builds for one instance. -/

theorem instanceStats_fst (env : TickEnv) (i : String) (stats : List String) :
    ∀ acc : List (String × Json) × List Event,
      (stats.foldl
          (fun a stat =>
            let r := statResult env i stat
            (insertKey a.1 stat r.1, a.2 ++ r.2)) acc).1 =
        statsMapFold env i stats acc.1 := by
  induction stats with
  | nil => intro acc; rfl
  | cons s rest ih => intro acc; simpa [statsMapFold, List.foldl_cons] using ih _

theorem instanceStats_eq (env : TickEnv) (i : String) (stats : List String) :
    (instanceStats env i stats).1 = statsMapFold env i stats [] :=
  instanceStats_fst env i stats ([], [])

theorem instanceStats_snd (env : TickEnv) (i : String) (stats : List String) :
    ∀ acc : List (String × Json) × List Event,
      (stats.foldl
          (fun a stat =>
            let r := statResult env i stat
            (insertKey a.1 stat r.1, a.2 ++ r.2)) acc).2 =
        acc.2 ++ (stats.map (fun s => (statResult env i s).2)).flatten := by
  induction stats with
  | nil => intro acc; simp
  | cons s rest ih => intro acc; simp [List.foldl_cons, ih]

theorem instanceStats_events (env : TickEnv) (i : String) (stats : List String) :
    (instanceStats env i stats).2 =
      (stats.map (fun s => (statResult env i s).2)).flatten := by
  simpa using instanceStats_snd env i stats ([], [])

theorem statVal_ok (env : TickEnv) (i s : String) :
    isStatsVal (statResult env i s).1 = true := by
  unfold statResult
  match h : env.provider i s with
  | ProviderResult.ok [] => simp [isStatsVal]
  | ProviderResult.ok (dp :: rest) => simp [isStatsVal]
  | ProviderResult.clientError e => simp [isStatsVal]

theorem statsMapFold_lookup (env : TickEnv) (i : String) (stats : List String)
    (s : String) :
    ∀ m0, lookupKey (statsMapFold env i stats m0) s =
      if s ∈ stats then some (statResult env i s).1 else lookupKey m0 s := by
  induction stats with
  | nil => intro m0; simp [statsMapFold]
  | cons s1 rest ih =>
      intro m0
      have step := ih (insertKey m0 s1 (statResult env i s1).1)
      simp only [statsMapFold] at step
      by_cases h1 : s1 = s
      · subst h1
        by_cases hr : s1 ∈ rest
        · simp [statsMapFold, List.foldl_cons, step, hr]
        · simp [statsMapFold, List.foldl_cons, step, hr, lookup_insert_self]
      · have hne : s ≠ s1 := fun he => h1 he.symm
        by_cases hr : s ∈ rest
        · simp [statsMapFold, List.foldl_cons, step, hr]
        · simp [statsMapFold, List.foldl_cons, step, hr, hne,
            lookup_insert_other _ _ _ _ hne]

theorem statsMapFold_keys_mem (env : TickEnv) (i : String)
    (stats : List String) (s : String) :
    ∀ m0, s ∈ (statsMapFold env i stats m0).map Prod.fst ↔
      s ∈ m0.map Prod.fst ∨ s ∈ stats := by
  induction stats with
  | nil => intro m0; simp [statsMapFold]
  | cons s1 rest ih =>
      intro m0
      simp only [statsMapFold, List.foldl_cons]
      have := ih (insertKey m0 s1 (statResult env i s1).1)
      simp only [statsMapFold] at this
      rw [this, keys_insert]
      by_cases hm : s1 ∈ m0.map Prod.fst
      · simp only [if_pos hm]
        constructor
        · rintro (h | h)
          · exact Or.inl h
          · exact Or.inr (List.mem_cons_of_mem _ h)
        · rintro (h | h)
          · exact Or.inl h
          · rcases List.mem_cons.mp h with h | h
            · exact Or.inl (h ▸ hm)
            · exact Or.inr h
      · simp only [if_neg hm, List.mem_append, List.mem_singleton, List.mem_cons]
        tauto

theorem statsMapFold_keys_nodup (env : TickEnv) (i : String)
    (stats : List String) :
    ∀ m0, (m0.map Prod.fst).Nodup →
      ((statsMapFold env i stats m0).map Prod.fst).Nodup := by
  induction stats with
  | nil => intro m0 h; simpa [statsMapFold] using h
  | cons s1 rest ih =>
      intro m0 h
      simp only [statsMapFold, List.foldl_cons]
      have step := ih (insertKey m0 s1 (statResult env i s1).1)
      simp only [statsMapFold] at step
      apply step
      rw [keys_insert]
      by_cases hm : s1 ∈ m0.map Prod.fst
      · simpa [hm] using h
      · simp [hm, List.nodup_append, h]

theorem statsMapFold_values (env : TickEnv) (i : String) (stats : List String) :
    ∀ m0, (∀ kv ∈ m0, isStatsVal kv.2 = true) →
      ∀ kv ∈ statsMapFold env i stats m0, isStatsVal kv.2 = true := by
  induction stats with
  | nil => intro m0 h; simpa [statsMapFold] using h
  | cons s1 rest ih =>
      intro m0 h
      simp only [statsMapFold, List.foldl_cons]
      have step := ih (insertKey m0 s1 (statResult env i s1).1)
      simp only [statsMapFold] at step
      apply step
      intro kv hkv
      rcases mem_insert _ _ _ _ hkv with h1 | h1
      · rw [h1]; exact statVal_ok env i s1
      · exact h kv h1

theorem entryShape_instanceEntry (env : TickEnv) (stats : List String)
    (i : String) : entryShape stats i (instanceEntry env i stats) := by
  refine ⟨(instanceStats env i stats).1, rfl, ?_, ?_, ?_⟩
  · rw [instanceStats_eq]
    exact statsMapFold_keys_nodup env i stats [] (by simp)
  · intro s
    rw [instanceStats_eq]
    simpa using statsMapFold_keys_mem env i stats s []
  · intro kv hkv
    rw [instanceStats_eq] at hkv
    exact statsMapFold_values env i stats [] (by simp) kv hkv

theorem forall₂_instanceEntries (env : TickEnv) (stats : List String) :
    ∀ l : List String,
      List.Forall₂ (entryShape stats) l
        (l.map (fun i => instanceEntry env i stats)) := by
  intro l
  induction l with
  | nil => simp
  | cons i rest ih =>
      exact List.Forall₂.cons (entryShape_instanceEntry env stats i) ih

theorem isInstanceEntry_instanceEntry (env : TickEnv) (i : String)
    (stats : List String) :
    isInstanceEntry (instanceEntry env i stats) = true := by
  show ((instanceStats env i stats).1.all (fun kv => isStatsVal kv.2)) = true
  rw [List.all_eq_true]
  intro kv hkv
  rw [instanceStats_eq] at hkv
  exact statsMapFold_values env i stats [] (by simp) kv hkv

theorem schema_tickJson (cfg : Config) (env : TickEnv) :
    metricRecordSchema (tickJson cfg env) = true := by
  show ((cfg.instances.map (fun i => instanceEntry env i cfg.stats)).all
      isInstanceEntry) = true
  rw [List.all_eq_true]
  intro e he
  rcases List.mem_map.mp he with ⟨i, _, rfl⟩
  exact isInstanceEntry_instanceEntry env i cfg.stats

theorem record_metrics_ok (cfg : Config) (env : TickEnv) (fs : FS)
    (h : env.writeError = none) :
    (record_metrics cfg env fs).1 cfg.metrics =
        fs cfg.metrics ++ [tickJson cfg env]
      ∧ (record_metrics cfg env fs).2.2 = Except.ok ()
      ∧ (record_metrics cfg env fs).2.1 = tickEvents cfg env := by
  simp [record_metrics, h]

/-! Claim theorems. -/

/-- C5: every completed collection tick appends exactly one MetricRecord,
holding exactly one stats-entry per configured instance, each with exactly
one value (numeric or explicitly null) per configured stat, for every
provider behavior. -/
theorem C5_completed_tick_shape (cfg : Config) (env : TickEnv) (fs : FS)
    (h : env.writeError = none) : completedTick cfg env fs := by
  refine ⟨(record_metrics_ok cfg env fs h).1, (record_metrics_ok cfg env fs h).2.1, ?_⟩
  refine ⟨cfg.instances.map (fun i => instanceEntry env i cfg.stats), rfl, ?_⟩
  exact forall₂_instanceEntries env cfg.stats cfg.instances

/-- Witness for C5 at a concrete configuration and tick. -/
theorem C5_completed_tick_shape_witness :
    envData.writeError = none ∧ completedTick cfgEx envData fsEmpty :=
  ⟨rfl, C5_completed_tick_shape cfgEx envData fsEmpty rfl⟩

/-- C4 (amended): a pair with an empty datapoint list gets an explicit null
and the tick continues, with NO notification; only a ClientError triggers
the log-and-notify path; in both cases every configured stat still receives
exactly one recorded value. -/
theorem C4_per_item_policy (cfg : Config) (env : TickEnv) (i s : String)
    (hs : s ∈ cfg.stats) :
    perItemPolicy env i s
    ∧ lookupKey (instanceStats env i cfg.stats).1 s =
        some (statResult env i s).1 := by
  refine ⟨⟨?_, ?_⟩, ?_⟩
  · intro h; simp [statResult, h]
  · intro e h; simp [statResult, h]
  · rw [instanceStats_eq, statsMapFold_lookup]
    simp [hs]

/-- Witness for C4 at a concrete configuration, for both the empty-result
tick and the erroring tick. -/
theorem C4_per_item_policy_witness :
    ("CPUUtilization" ∈ cfgEx.stats)
    ∧ (perItemPolicy envEmpty "i-1" "CPUUtilization"
       ∧ lookupKey (instanceStats envEmpty "i-1" cfgEx.stats).1 "CPUUtilization" =
           some (statResult envEmpty "i-1" "CPUUtilization").1)
    ∧ (perItemPolicy envErr "i-1" "CPUUtilization"
       ∧ lookupKey (instanceStats envErr "i-1" cfgEx.stats).1 "CPUUtilization" =
           some (statResult envErr "i-1" "CPUUtilization").1) :=
  ⟨by decide,
   C4_per_item_policy cfgEx envEmpty "i-1" "CPUUtilization" (by decide),
   C4_per_item_policy cfgEx envErr "i-1" "CPUUtilization" (by decide)⟩

/-- C4 (counterexample to the claim as stated): a tick in which the provider
returns an empty datapoint list for the only configured pair records an
explicit null for the pair but emits NO notification at all, contradicting
the claimed absent-value-AND-notify policy for the no-data case. -/
theorem C4_counterexample :
    tickEvents cfgEx envEmpty = []
    ∧ jsonField (instanceEntry envEmpty "i-1" cfgEx.stats) "stats" =
        some (Json.obj [("CPUUtilization", Json.null)]) :=
  ⟨rfl, rfl⟩

/-- C9: when the provider returns a nonempty datapoint list for a pair, the
recorded value is the Average field of the FIRST datapoint of the list,
whatever its timestamp, with no aggregation over the rest. -/
theorem C9_first_datapoint (env : TickEnv) (i s : String) (dp : Datapoint)
    (dps : List Datapoint)
    (h : env.provider i s = ProviderResult.ok (dp :: dps)) :
    statResult env i s = (Json.num dp.average, []) := by
  simp [statResult, h]

/-- Witness for C9: the provider returns two datapoints with the
chronologically LATER one first; the recorded value is the first one. -/
theorem C9_first_datapoint_witness :
    envData.provider "i-1" "CPUUtilization" =
        ProviderResult.ok [dpNew, dpOld]
    ∧ statResult envData "i-1" "CPUUtilization" =
        (Json.num (37 / 2), []) :=
  ⟨rfl, C9_first_datapoint envData "i-1" "CPUUtilization" dpNew [dpOld] rfl⟩

/-- C3 (amended): a write failure makes the tick log, notify best-effort
and raise; since neither schedule.run_pending nor the bare while loop in
main catches job exceptions, the loop terminates with the failing tick:
exactly the preceding healthy ticks plus the failing one ever start, and no
tick after the failure executes (the trailing ticks do not appear in the
result at all). -/
theorem C3_write_failure_kills_loop (cfg : Config) (pre post : List TickEnv)
    (bad : TickEnv) (er : String) (fs : FS)
    (hpre : ∀ e ∈ pre, e.writeError = none)
    (hbad : bad.writeError = some er) :
    mainLoop cfg (pre ++ bad :: post) fs =
      (runTicks cfg pre fs,
       (pre.map (fun e => tickEvents cfg e)).flatten ++
         (tickEvents cfg bad ++
          [Event.logError (writeErrMsg er), Event.notified (writeErrMsg er)]),
       pre.length + 1, false) := by
  revert hpre
  induction pre generalizing fs with
  | nil =>
      intro hpre
      simp [mainLoop, record_metrics, hbad, runTicks]
  | cons e pre ih =>
      intro hpre
      have he : e.writeError = none := hpre e (by simp)
      have hpre2 : ∀ x ∈ pre, x.writeError = none :=
        fun x hx => hpre x (by simp [hx])
      have hrec := record_metrics_ok cfg e fs he
      simp only [List.cons_append, mainLoop, List.append_eq]
      rw [hrec.2.1, ih (record_metrics cfg e fs).1 hpre2]
      simp [runTicks, hrec.2.2, List.length_cons]

/-- Witness for C3 (amended): one healthy tick, then a failing tick, then a
further scheduled tick that never runs. -/
theorem C3_write_failure_kills_loop_witness :
    (∀ e ∈ [envData], e.writeError = none)
    ∧ envFail.writeError = some "disk full"
    ∧ mainLoop cfgEx ([envData] ++ envFail :: [envData2]) fsEmpty =
        (runTicks cfgEx [envData] fsEmpty,
         ([envData].map (fun e => tickEvents cfgEx e)).flatten ++
           (tickEvents cfgEx envFail ++
            [Event.logError (writeErrMsg "disk full"),
             Event.notified (writeErrMsg "disk full")]),
         [envData].length + 1, false) :=
  ⟨fun e he => by rw [List.mem_singleton.mp he]; rfl, rfl,
   C3_write_failure_kills_loop cfgEx [envData] [envData2] envFail "disk full"
     fsEmpty (fun e he => by rw [List.mem_singleton.mp he]; rfl) rfl⟩

/-- C3 (counterexample to the claim as stated): with a failing first tick
and a healthy second tick scheduled, only ONE tick ever starts and the loop
is no longer alive afterwards: the subsequently due tick does not execute
and the process exits, contradicting the claimed loop survival. -/
theorem C3_counterexample :
    (mainLoop cfgEx [envFail, envData2] fsEmpty).2.2 = (1, false)
    ∧ (mainLoop cfgEx [envFail, envData2] fsEmpty).1 cfgEx.metrics = []
    ∧ (mainLoop cfgEx [envFail, envData2] fsEmpty).2.1 =
        [Event.logError (writeErrMsg "disk full"),
         Event.notified (writeErrMsg "disk full")] :=
  ⟨rfl, rfl, rfl⟩

/-! The serializer never emits a raw newline, so each appended document
occupies exactly one line of the metrics file. -/

theorem no_nl_append (a b : String) (ha : '\n' ∉ a.data)
    (hb : '\n' ∉ b.data) : '\n' ∉ (a ++ b).data := by
  intro h
  rw [String.data_append] at h
  rcases List.mem_append.mp h with h | h
  · exact ha h
  · exact hb h

theorem digitChar_ne_nl (d : Nat) (h : d < 10) : digitChar d ≠ '\n' := by
  interval_cases d <;> decide

theorem natStrAux_nl (fuel : Nat) :
    ∀ n acc, '\n' ∉ acc → '\n' ∉ natStrAux fuel n acc := by
  induction fuel with
  | zero => intro n acc h; simpa [natStrAux] using h
  | succ fuel ih =>
      intro n acc h
      match n with
      | 0 => simpa [natStrAux] using h
      | n + 1 =>
          simp only [natStrAux]
          apply ih
          intro hc
          rcases List.mem_cons.mp hc with hc | hc
          · exact digitChar_ne_nl _ (Nat.mod_lt _ (by norm_num)) hc.symm
          · exact h hc

theorem natStr_nl (n : Nat) : '\n' ∉ (natStr n).data := by
  unfold natStr
  by_cases h : n = 0
  · simp only [h, if_pos rfl]; decide
  · simp only [if_neg h]
    exact natStrAux_nl n n [] (by simp)

theorem renderRat_nl (q : ℚ) : '\n' ∉ (renderRat q).data := by
  unfold renderRat
  split_ifs
  all_goals simp only [String.data_append, List.mem_append, not_or]
  all_goals repeat' apply And.intro
  all_goals first | decide | exact natStr_nl _

theorem hexDigit_ne_nl (n : Nat) (h : n < 16) : hexDigit n ≠ '\n' := by
  interval_cases n <;> decide

theorem uEscape_nl (n : Nat) : '\n' ∉ (uEscape n).data := by
  unfold uEscape
  apply no_nl_append _ _ (by decide)
  intro h
  rcases List.mem_cons.mp h with hc | h
  · exact hexDigit_ne_nl _ (Nat.mod_lt _ (by norm_num)) hc.symm
  rcases List.mem_cons.mp h with hc | h
  · exact hexDigit_ne_nl _ (Nat.mod_lt _ (by norm_num)) hc.symm
  rcases List.mem_cons.mp h with hc | h
  · exact hexDigit_ne_nl _ (Nat.mod_lt _ (by norm_num)) hc.symm
  rcases List.mem_cons.mp h with hc | h
  · exact hexDigit_ne_nl _ (Nat.mod_lt _ (by norm_num)) hc.symm
  · simp at h

theorem escChar_nl (c : Char) : '\n' ∉ (escChar c).data := by
  unfold escChar
  split_ifs with h1 h2 h3 h4 h5 h6 h7 h8
  · decide
  · decide
  · decide
  · decide
  · decide
  · decide
  · decide
  · exact uEscape_nl _
  · intro h
    rcases List.mem_cons.mp h with hc | h
    · rw [← hc] at h8
      exact h8 (Or.inl (by decide))
    · simp at h

theorem escString_nl (s : String) : '\n' ∉ (escString s).data := by
  unfold escString
  induction s.data with
  | nil => decide
  | cons c cs ih => exact no_nl_append _ _ (escChar_nl c) ih

theorem dumpJson_no_newline (j : Json) : '\n' ∉ (dumpJson j).data := by
  refine dumpJson.induct (fun j => '\n' ∉ (dumpJson j).data)
      (fun m => '\n' ∉ (dumpObj m).data)
      (fun l => '\n' ∉ (dumpArr l).data)
      ?_ ?_ ?_ ?_ ?_ ?_ ?_ ?_ ?_ ?_ ?_ j
  · decide
  · intro q; simpa [dumpJson] using renderRat_nl q
  · intro s
    simp only [dumpJson, String.data_append, List.mem_append, not_or]
    repeat' apply And.intro
    all_goals first | decide | exact escString_nl _
  · intro l ih
    simp only [dumpJson, String.data_append, List.mem_append, not_or]
    repeat' apply And.intro
    all_goals first | decide | assumption
  · intro m ih
    simp only [dumpJson, String.data_append, List.mem_append, not_or]
    repeat' apply And.intro
    all_goals first | decide | assumption
  · decide
  · intro j2 ih; simpa [dumpArr] using ih
  · intro j2 j3 rest ih1 ih2
    simp only [dumpArr, String.data_append, List.mem_append, not_or]
    repeat' apply And.intro
    all_goals first | decide | assumption
  · decide
  · intro k v ih
    simp only [dumpObj, String.data_append, List.mem_append, not_or]
    repeat' apply And.intro
    all_goals first | decide | assumption | exact escString_nl _
  · intro k v kv rest ih1 ih2
    simp only [dumpObj, String.data_append, List.mem_append, not_or]
    repeat' apply And.intro
    all_goals first | decide | assumption | exact escString_nl _

theorem runTicks_log (cfg : Config) (envs : List TickEnv) (fs : FS)
    (hw : ∀ e ∈ envs, e.writeError = none) :
    runTicks cfg envs fs cfg.metrics =
      fs cfg.metrics ++ envs.map (fun e => tickJson cfg e) := by
  revert hw
  induction envs generalizing fs with
  | nil => intro hw; simp [runTicks]
  | cons e rest ih =>
      intro hw
      have he : e.writeError = none := hw e (by simp)
      have hrest : ∀ x ∈ rest, x.writeError = none :=
        fun x hx => hw x (by simp [hx])
      have hrec := record_metrics_ok cfg e fs he
      simp only [runTicks]
      rw [ih (record_metrics cfg e fs).1 hrest, hrec.1]
      simp

/-- C7: starting from an empty metrics log, N completed ticks leave exactly
N records, one per tick in tick order, each matching the MetricRecord
schema and serializing without any raw newline (hence one line each), with
the tick instants in non-decreasing order. -/
theorem C7_log_lines (cfg : Config) (envs : List TickEnv) (fs0 : FS)
    (hw : ∀ e ∈ envs, e.writeError = none)
    (h0 : fs0 cfg.metrics = [])
    (ht : List.Chain' dtLe (envs.map TickEnv.now)) :
    logFacts cfg envs fs0 := by
  refine ⟨?_, ?_, ?_, ht⟩
  · rw [runTicks_log cfg envs fs0 hw, h0]; simp
  · rw [runTicks_log cfg envs fs0 hw, h0]; simp
  · intro e _
    exact ⟨schema_tickJson cfg e, rfl, dumpJson_no_newline _⟩

/-- Witness for C7: two completed ticks one minute apart. -/
theorem C7_log_lines_witness :
    (∀ e ∈ [envData, envData2], e.writeError = none)
    ∧ fsEmpty cfgEx.metrics = []
    ∧ List.Chain' dtLe ([envData, envData2].map TickEnv.now)
    ∧ logFacts cfgEx [envData, envData2] fsEmpty := by
  have hw : ∀ e ∈ [envData, envData2], e.writeError = none := by
    intro e he
    rcases List.mem_cons.mp he with rfl | he
    · rfl
    · rw [List.mem_singleton.mp he]; rfl
  have ht : List.Chain' dtLe ([envData, envData2].map TickEnv.now) := by
    simp [envData, envData2, List.chain'_cons, dtLe]
  exact ⟨hw, rfl, ht, C7_log_lines cfgEx [envData, envData2] fsEmpty hw rfl ht⟩

/-- C8 (amended): each completed tick appends one record matching the
schema with timestamp string plus metrics list of instance_id/stats
entries, serialized without raw newlines; the timestamp is Python
str(datetime.utcnow()): YYYY-MM-DD HH:MM:SS[.ffffff] with a space
separator, not the T-separated ISO-8601 combined form. -/
theorem C8_line_schema (cfg : Config) (env : TickEnv) (fs : FS)
    (h : env.writeError = none) :
    (record_metrics cfg env fs).1 cfg.metrics =
        fs cfg.metrics ++ [tickJson cfg env]
    ∧ metricRecordSchema (tickJson cfg env) = true
    ∧ jsonField (tickJson cfg env) "timestamp" =
        some (Json.str (pyStr env.now))
    ∧ '\n' ∉ (dumpJson (tickJson cfg env)).data :=
  ⟨(record_metrics_ok _ _ _ h).1, schema_tickJson cfg env, rfl,
   dumpJson_no_newline _⟩

/-- Witness for C8 (amended) at a concrete tick. -/
theorem C8_line_schema_witness :
    envData.writeError = none
    ∧ ((record_metrics cfgEx envData fsEmpty).1 cfgEx.metrics =
          fsEmpty cfgEx.metrics ++ [tickJson cfgEx envData]
       ∧ metricRecordSchema (tickJson cfgEx envData) = true
       ∧ jsonField (tickJson cfgEx envData) "timestamp" =
           some (Json.str (pyStr envData.now))
       ∧ '\n' ∉ (dumpJson (tickJson cfgEx envData)).data) :=
  ⟨rfl, C8_line_schema cfgEx envData fsEmpty rfl⟩

/-- C8 (counterexample to the claim as stated): the timestamp the collector
writes uses a space between date and time, so it is not in the ISO 8601
combined representation, while the same instant with the T separator is. -/
theorem C8_timestamp_not_iso :
    jsonField (tickJson cfgEx envData) "timestamp" =
        some (Json.str "2024-01-02 03:04:05")
    ∧ isoCombined "2024-01-02 03:04:05" = false
    ∧ isoCombined "2024-01-02T03:04:05" = true :=
  ⟨rfl, by decide, by decide⟩

/-- C2: the collector appends to the file named by the config key metrics
while the reporter reads the file named by the separate config key
data_file; at a configuration where the two paths differ, the record
appended by a completed tick is in the written file, the reporter parses an
empty history, and the published digest is empty despite the collected
record. -/
theorem C2_write_read_divergence :
    cfgEx.metrics = "metrics.json"
    ∧ cfgEx.data_file = "data.json"
    ∧ fsAfterTick cfgEx.metrics = [tickJson cfgEx envData]
    ∧ fsAfterTick cfgEx.data_file = []
    ∧ send_weekly_summary cfgEx fsAfterTick "arn" ⟨none⟩ =
        ([Event.published "arn" "Weekly EC2 Metrics Summary"
            "Weekly Summary:\n"],
         Except.ok ()) :=
  ⟨rfl, rfl, rfl, rfl, rfl⟩

/-! Lemmas about alarm provisioning. -/

theorem mapOption_eq_map {α β : Type} (f : α → Option β) (g : α → β)
    (l : List α) (h : ∀ x ∈ l, f x = some (g x)) :
    mapOption f l = some (l.map g) := by
  induction l with
  | nil => rfl
  | cons x xs ih =>
      have hx := h x (by simp)
      have hxs := ih (fun y hy => h y (by simp [hy]))
      simp [mapOption, hx, hxs]

theorem alarmPair_eq (cfg : Config) (topic i s : String)
    (h1 : (lookupThreshold cfg s "amber").isSome = true)
    (h2 : (lookupThreshold cfg s "red").isSome = true) :
    alarmPair cfg topic i s =
      some [amberAlarm topic i s ((lookupThreshold cfg s "amber").getD 0),
            redAlarm topic i s ((lookupThreshold cfg s "red").getD 0)] := by
  obtain ⟨a, ha⟩ := Option.isSome_iff_exists.mp h1
  obtain ⟨r, hr⟩ := Option.isSome_iff_exists.mp h2
  simp [alarmPair, ha, hr]

theorem create_alarms_ok (cfg : Config) (topic : String)
    (h : ∀ s ∈ cfg.stats, (lookupThreshold cfg s "amber").isSome = true
        ∧ (lookupThreshold cfg s "red").isSome = true) :
    create_alarms cfg topic = some (allAlarms cfg topic) := by
  unfold create_alarms allAlarms
  rw [mapOption_eq_map _
      (fun i => (cfg.stats.map (fun s =>
        [amberAlarm topic i s ((lookupThreshold cfg s "amber").getD 0),
         redAlarm topic i s ((lookupThreshold cfg s "red").getD 0)])).flatten) _ ?_]
  · rfl
  · intro i _
    rw [mapOption_eq_map _
        (fun s =>
          [amberAlarm topic i s ((lookupThreshold cfg s "amber").getD 0),
           redAlarm topic i s ((lookupThreshold cfg s "red").getD 0)]) _ ?_]
    · rfl
    · intro s hs
      exact alarmPair_eq cfg topic i s (h s hs).1 (h s hs).2

theorem filter_eq_single {α : Type} (p : α → Bool) (L : List α) (x : α)
    (hx : x ∈ L) (hpx : p x = true) (hc : L.countP p = 1) :
    L.filter p = [x] := by
  induction L with
  | nil => cases hx
  | cons y ys ih =>
      by_cases hy : p y = true
      · have hys : ys.countP p = 0 := by
          have := List.countP_cons p y ys
          rw [List.countP_cons, if_pos hy] at hc
          omega
        have hall := List.countP_eq_zero.mp hys
        have hfys : ys.filter p = [] := List.filter_eq_nil_iff.mpr hall
        have hxy : x = y := by
          rcases List.mem_cons.mp hx with rfl | hxm
          · rfl
          · exact absurd hpx (hall x hxm)
        simp [List.filter_cons, hy, hfys, hxy]
      · have hx2 : x ∈ ys := by
          rcases List.mem_cons.mp hx with rfl | hm
          · exact absurd hpx hy
          · exact hm
        have hc2 : ys.countP p = 1 := by
          rw [List.countP_cons, if_neg hy] at hc
          omega
        simp [List.filter_cons, hy, ih hx2 hc2]

theorem mem_allAlarms_amber (cfg : Config) (topic i s : String)
    (hi : i ∈ cfg.instances) (hs : s ∈ cfg.stats) :
    amberAlarm topic i s ((lookupThreshold cfg s "amber").getD 0) ∈
      allAlarms cfg topic := by
  unfold allAlarms
  rw [List.mem_flatten]
  refine ⟨_, List.mem_map_of_mem _ hi, ?_⟩
  rw [List.mem_flatten]
  exact ⟨_, List.mem_map_of_mem _ hs, by simp⟩

theorem mem_allAlarms_red (cfg : Config) (topic i s : String)
    (hi : i ∈ cfg.instances) (hs : s ∈ cfg.stats) :
    redAlarm topic i s ((lookupThreshold cfg s "red").getD 0) ∈
      allAlarms cfg topic := by
  unfold allAlarms
  rw [List.mem_flatten]
  refine ⟨_, List.mem_map_of_mem _ hi, ?_⟩
  rw [List.mem_flatten]
  exact ⟨_, List.mem_map_of_mem _ hs, by simp⟩

theorem filter_name_single (L : List AlarmSpec) (x : AlarmSpec)
    (hx : x ∈ L) (hnames : (L.map AlarmSpec.alarmName).Nodup) :
    L.filter (fun al => al.alarmName == x.alarmName) = [x] := by
  apply filter_eq_single _ _ _ hx (by simp)
  have hmem : x.alarmName ∈ L.map AlarmSpec.alarmName :=
    List.mem_map_of_mem _ hx
  have hcount := List.count_eq_one_of_mem hnames hmem
  rw [List.count, List.countP_map] at hcount
  simpa [Function.comp] using hcount

/-- C1 (amended): for every configured (instance, stat) pair, assuming the
threshold map holds the keys amber and red for every stat (otherwise
provisioning aborts with a KeyError) and the generated alarm names do not
collide, the registered sequence holds exactly one alarm named
instance_stat_Amber_Alarm and exactly one named instance_stat_Red_Alarm,
each with a GreaterThanThreshold comparison, a 60-second period, one
evaluation period, and the amber (resp. red) threshold of the stat. -/
theorem C1_two_tier_alarms (cfg : Config) (topic i s : String) (a r : ℚ)
    (L : List AlarmSpec)
    (hi : i ∈ cfg.instances) (hs : s ∈ cfg.stats)
    (ha : lookupThreshold cfg s "amber" = some a)
    (hr : lookupThreshold cfg s "red" = some r)
    (hthr : ∀ s2 ∈ cfg.stats, (lookupThreshold cfg s2 "amber").isSome = true
        ∧ (lookupThreshold cfg s2 "red").isSome = true)
    (hL : create_alarms cfg topic = some L)
    (hnames : (L.map AlarmSpec.alarmName).Nodup) :
    L.filter (fun al => al.alarmName == i ++ "_" ++ s ++ "_Amber_Alarm") =
        [amberAlarm topic i s a]
    ∧ L.filter (fun al => al.alarmName == i ++ "_" ++ s ++ "_Red_Alarm") =
        [redAlarm topic i s r]
    ∧ (amberAlarm topic i s a).threshold = a
    ∧ (redAlarm topic i s r).threshold = r
    ∧ (amberAlarm topic i s a).comparisonOperator = "GreaterThanThreshold"
    ∧ (redAlarm topic i s r).comparisonOperator = "GreaterThanThreshold"
    ∧ (amberAlarm topic i s a).period = 60
    ∧ (redAlarm topic i s r).period = 60
    ∧ (amberAlarm topic i s a).evaluationPeriods = 1
    ∧ (redAlarm topic i s r).evaluationPeriods = 1 := by
  have hLa : L = allAlarms cfg topic := by
    have := create_alarms_ok cfg topic hthr
    rw [hL] at this
    exact Option.some.inj this
  subst hLa
  have hamem : amberAlarm topic i s a ∈ allAlarms cfg topic := by
    have := mem_allAlarms_amber cfg topic i s hi hs
    rwa [ha] at this
  have hrmem : redAlarm topic i s r ∈ allAlarms cfg topic := by
    have := mem_allAlarms_red cfg topic i s hi hs
    rwa [hr] at this
  refine ⟨?_, ?_, rfl, rfl, rfl, rfl, rfl, rfl, rfl, rfl⟩
  · exact filter_name_single _ _ hamem hnames
  · exact filter_name_single _ _ hrmem hnames

/-- Witness for C1 (amended) at the concrete configuration. -/
theorem C1_two_tier_alarms_witness :
    ("i-1" ∈ cfgEx.instances)
    ∧ ("CPUUtilization" ∈ cfgEx.stats)
    ∧ lookupThreshold cfgEx "CPUUtilization" "amber" = some 70
    ∧ lookupThreshold cfgEx "CPUUtilization" "red" = some 90
    ∧ create_alarms cfgEx "arn:topic" = some (allAlarms cfgEx "arn:topic")
    ∧ ((allAlarms cfgEx "arn:topic").map AlarmSpec.alarmName).Nodup
    ∧ (allAlarms cfgEx "arn:topic").filter
        (fun al => al.alarmName == "i-1" ++ "_" ++ "CPUUtilization" ++ "_Amber_Alarm") =
        [amberAlarm "arn:topic" "i-1" "CPUUtilization" 70]
    ∧ (allAlarms cfgEx "arn:topic").filter
        (fun al => al.alarmName == "i-1" ++ "_" ++ "CPUUtilization" ++ "_Red_Alarm") =
        [redAlarm "arn:topic" "i-1" "CPUUtilization" 90] := by
  have h := C1_two_tier_alarms cfgEx "arn:topic" "i-1" "CPUUtilization" 70 90
      (allAlarms cfgEx "arn:topic") (by decide) (by decide) (by decide)
      (by decide) (by decide) rfl (by decide)
  exact ⟨by decide, by decide, by decide, by decide, rfl, by decide, h.1, h.2.1⟩

/-- C1 (counterexample to the claim as stated): the code names the two
alarms Amber and Red, not Warning and Critical, and reads the threshold
keys amber and red; on a configuration whose threshold map has the keys
warning and critical instead, provisioning registers nothing at all
(KeyError abort). -/
theorem C1_names_counterexample :
    create_alarms cfgEx "arn:topic" =
        some [amberAlarm "arn:topic" "i-1" "CPUUtilization" 70,
              redAlarm "arn:topic" "i-1" "CPUUtilization" 90]
    ∧ (amberAlarm "arn:topic" "i-1" "CPUUtilization" 70).alarmName =
        "i-1_CPUUtilization_Amber_Alarm"
    ∧ (redAlarm "arn:topic" "i-1" "CPUUtilization" 90).alarmName =
        "i-1_CPUUtilization_Red_Alarm"
    ∧ "i-1_CPUUtilization_Warning_Alarm" ∉
        ["i-1_CPUUtilization_Amber_Alarm", "i-1_CPUUtilization_Red_Alarm"]
    ∧ "i-1_CPUUtilization_Critical_Alarm" ∉
        ["i-1_CPUUtilization_Amber_Alarm", "i-1_CPUUtilization_Red_Alarm"]
    ∧ create_alarms cfgWarnCrit "arn:topic" = none :=
  ⟨rfl, rfl, rfl, by decide, by decide, rfl⟩

/-! Lemmas about the weekly reporter. -/

theorem except_bind_ok {α β : Type} (x : Except String α)
    (f : α → Except String β) (b : β) :
    (x >>= f) = Except.ok b ↔ ∃ a, x = Except.ok a ∧ f a = Except.ok b := by
  cases x <;> simp [Bind.bind, Except.bind]

theorem wf_firstStats (cfg : Config) (j : Json)
    (hwf : wellFormedLine cfg j = true) :
    ∃ sm, firstStats j = Except.ok (Json.obj sm)
      ∧ ∀ s ∈ cfg.stats, ∃ v, lookupKey sm s = some v ∧ isStatsVal v = true := by
  unfold wellFormedLine at hwf
  split at hwf
  · next sm heq =>
      refine ⟨sm, heq, ?_⟩
      rw [List.all_eq_true] at hwf
      intro s hs
      have hv := hwf s hs
      split at hv
      · next v heqv => exact ⟨v, heqv, hv⟩
      · simp at hv
  · simp at hwf

theorem wf_lineStatValue (cfg : Config) (j : Json) (s : String)
    (hwf : wellFormedLine cfg j = true) (hs : s ∈ cfg.stats) :
    ∃ v, lineStatValue j s = Except.ok v ∧ isStatsVal v = true := by
  obtain ⟨sm, hf, hall⟩ := wf_firstStats cfg j hwf
  obtain ⟨v, hv, hsv⟩ := hall s hs
  refine ⟨v, ?_, hsv⟩
  unfold firstStats at hf
  rw [except_bind_ok] at hf
  obtain ⟨m, h1, h2⟩ := hf
  rw [except_bind_ok] at h2
  obtain ⟨e0, h3, h4⟩ := h2
  unfold lineStatValue
  rw [except_bind_ok]
  refine ⟨m, h1, ?_⟩
  rw [except_bind_ok]
  refine ⟨e0, h3, ?_⟩
  rw [except_bind_ok]
  refine ⟨Json.obj sm, h4, ?_⟩
  simp [objGet, hv]

theorem collectValues_wf (cfg : Config) (data : List Json) (s : String)
    (hwf : ∀ j ∈ data, wellFormedLine cfg j = true) (hs : s ∈ cfg.stats) :
    collectValues data s = Except.ok (pureValues data s)
    ∧ ∀ v ∈ pureValues data s, isStatsVal v = true ∧ isNull v = false := by
  induction data with
  | nil => exact ⟨rfl, by simp [pureValues]⟩
  | cons j rest ih =>
      obtain ⟨v, hv, hsv⟩ := wf_lineStatValue cfg j s (hwf j (by simp)) hs
      obtain ⟨hc, hvals⟩ := ih (fun x hx => hwf x (by simp [hx]))
      constructor
      · simp only [collectValues, pureValues, hv, hc]
        simp [Bind.bind, Except.bind, pure, Except.pure]
      · intro w hw
        simp only [pureValues, hv] at hw
        by_cases hn : isNull v = true
        · rw [if_pos hn] at hw
          exact hvals w hw
        · rw [if_neg hn] at hw
          rcases List.mem_cons.mp hw with rfl | hw2
          · exact ⟨hsv, by simpa using hn⟩
          · exact hvals w hw2

theorem toNums_wf (l : List Json)
    (h : ∀ v ∈ l, isStatsVal v = true ∧ isNull v = false) :
    toNums l = Except.ok (l.filterMap (fun v =>
      match v with | Json.num q => some q | _ => none)) := by
  induction l with
  | nil => rfl
  | cons v vs ih =>
      obtain ⟨h1, h2⟩ := h v (by simp)
      have ihh := ih (fun x hx => h x (by simp [hx]))
      cases v with
      | num q => simp [toNums, ihh, Except.map, List.filterMap_cons]
      | null => simp [isNull] at h2
      | str a => simp [isStatsVal] at h1
      | arr a => simp [isStatsVal] at h1
      | obj a => simp [isStatsVal] at h1

theorem foldl_max_le (l : List ℚ) : ∀ v, ∀ x ∈ v :: l, x ≤ l.foldl max v := by
  induction l with
  | nil =>
      intro v x hx
      rw [List.mem_singleton.mp hx]
      exact le_refl _
  | cons w l ih =>
      intro v x hx
      simp only [List.foldl_cons]
      have h2 := ih (max v w)
      rcases List.mem_cons.mp hx with rfl | hx2
      · exact le_trans (le_max_left _ _) (h2 _ (List.mem_cons_self _ _))
      rcases List.mem_cons.mp hx2 with rfl | hx3
      · exact le_trans (le_max_right _ _) (h2 _ (List.mem_cons_self _ _))
      · exact h2 x (by simp [hx3])

theorem foldl_max_mem (l : List ℚ) : ∀ v, l.foldl max v ∈ v :: l := by
  induction l with
  | nil => intro v; simp
  | cons w l ih =>
      intro v
      simp only [List.foldl_cons]
      rcases List.mem_cons.mp (ih (max v w)) with h | h
      · rcases max_choice v w with hm | hm
        · rw [h, hm]; simp
        · rw [h, hm]; simp
      · simp [h]

theorem foldl_min_le (l : List ℚ) : ∀ v, ∀ x ∈ v :: l, l.foldl min v ≤ x := by
  induction l with
  | nil =>
      intro v x hx
      rw [List.mem_singleton.mp hx]
      exact le_refl _
  | cons w l ih =>
      intro v x hx
      simp only [List.foldl_cons]
      have h2 := ih (min v w)
      rcases List.mem_cons.mp hx with rfl | hx2
      · exact le_trans (h2 _ (List.mem_cons_self _ _)) (min_le_left _ _)
      rcases List.mem_cons.mp hx2 with rfl | hx3
      · exact le_trans (h2 _ (List.mem_cons_self _ _)) (min_le_right _ _)
      · exact h2 x (by simp [hx3])

theorem foldl_min_mem (l : List ℚ) : ∀ v, l.foldl min v ∈ v :: l := by
  induction l with
  | nil => intro v; simp
  | cons w l ih =>
      intro v
      simp only [List.foldl_cons]
      rcases List.mem_cons.mp (ih (min v w)) with h | h
      · rcases min_choice v w with hm | hm
        · rw [h, hm]; simp
        · rw [h, hm]; simp
      · simp [h]

theorem summarize_fold_wf (cfg : Config) (data : List Json)
    (hwf : ∀ j ∈ data, wellFormedLine cfg j = true) :
    ∀ (stats : List String), (∀ s ∈ stats, s ∈ cfg.stats) →
    ∀ acc,
      List.foldlM
        (fun acc stat => do
          let raw ← collectValues data stat
          match raw with
          | [] => pure acc
          | _ :: _ => do
              let vals ← toNums raw
              match vals with
              | [] => pure acc
              | v :: vs =>
                  pure
                    (insertKey acc stat
                      (vs.foldl max v, vs.foldl min v,
                       (v :: vs).sum / ((v :: vs).length : ℚ))))
        acc stats = Except.ok (digestFold data stats acc) := by
  intro stats
  induction stats with
  | nil => intro _ acc; rfl
  | cons s rest ih =>
      intro hsub acc
      have hs : s ∈ cfg.stats := hsub s (by simp)
      have hrest : ∀ x ∈ rest, x ∈ cfg.stats := fun x hx => hsub x (by simp [hx])
      obtain ⟨hcoll, hvals⟩ := collectValues_wf cfg data s hwf hs
      rw [List.foldlM_cons]
      cases hpv : pureValues data s with
      | nil =>
          rw [hpv] at hcoll
          have hstep :
              (do
                let raw ← collectValues data s
                match raw with
                | [] => pure acc
                | _ :: _ => do
                    let vals ← toNums raw
                    match vals with
                    | [] => pure acc
                    | v :: vs =>
                        pure
                          (insertKey acc s
                            (vs.foldl max v, vs.foldl min v,
                             (v :: vs).sum / ((v :: vs).length : ℚ)))) =
                Except.ok acc := by
            simp [hcoll, Bind.bind, Except.bind, pure, Except.pure]
          rw [hstep]
          have hp0 : pureRats data s = [] := by simp [pureRats, hpv]
          have hdi : digestFold data (s :: rest) acc = digestFold data rest acc := by
            conv_lhs => rw [digestFold]
            rw [hp0]
          rw [hdi]
          simpa [Bind.bind, Except.bind] using ih hrest acc
      | cons v vv =>
          rw [hpv] at hcoll hvals
          obtain ⟨hsv, hnn⟩ := hvals v (by simp)
          have hnums := toNums_wf (v :: vv) hvals
          cases v with
          | null => simp [isNull] at hnn
          | str a => simp [isStatsVal] at hsv
          | arr a => simp [isStatsVal] at hsv
          | obj a => simp [isStatsVal] at hsv
          | num q =>
              have hpr : pureRats data s =
                  q :: vv.filterMap (fun v =>
                    match v with | Json.num q => some q | _ => none) := by
                simp [pureRats, hpv, List.filterMap_cons]
              have hstep :
                  (do
                    let raw ← collectValues data s
                    match raw with
                    | [] => pure acc
                    | _ :: _ => do
                        let vals ← toNums raw
                        match vals with
                        | [] => pure acc
                        | v :: vs =>
                            pure
                              (insertKey acc s
                                (vs.foldl max v, vs.foldl min v,
                                 (v :: vs).sum / ((v :: vs).length : ℚ)))) =
                    Except.ok (insertKey acc s (summaryOf (pureRats data s))) := by
                rw [hcoll]
                simp only [Bind.bind, Except.bind]
                rw [hnums]
                simp only [List.filterMap_cons]
                simp [hpr, summaryOf, Bind.bind, Except.bind, pure, Except.pure]
              rw [hstep]
              have hdi : digestFold data (s :: rest) acc =
                  digestFold data rest (insertKey acc s (summaryOf (pureRats data s))) := by
                conv_lhs => rw [digestFold]
                rw [hpr]
              rw [hdi]
              simpa [Bind.bind, Except.bind] using
                ih hrest (insertKey acc s (summaryOf (pureRats data s)))

theorem summarize_wf (cfg : Config) (data : List Json)
    (hwf : ∀ j ∈ data, wellFormedLine cfg j = true) :
    summarize cfg data = Except.ok (digestOf cfg data) := by
  unfold summarize digestOf
  exact summarize_fold_wf cfg data hwf cfg.stats (fun s hs => hs) []

theorem digestFold_lookup (data : List Json) :
    ∀ (stats : List String) (acc : List (String × ℚ × ℚ × ℚ)) (s : String),
      lookupKey (digestFold data stats acc) s =
        if s ∈ stats ∧ pureRats data s ≠ [] then
          some (summaryOf (pureRats data s))
        else lookupKey acc s := by
  intro stats
  induction stats with
  | nil => intro acc s; simp [digestFold]
  | cons t rest ih =>
      intro acc s
      unfold digestFold
      rw [ih]
      by_cases hts : t = s
      · subst hts
        cases hpr : pureRats data t with
        | nil => simp
        | cons q qs =>
            by_cases hmr : t ∈ rest
            · simp [hmr]
            · simp [hmr, lookup_insert_self]
      · have hne : s ≠ t := fun he => hts he.symm
        have hacc :
            lookupKey
              (match pureRats data t with
               | [] => acc
               | _ :: _ => insertKey acc t (summaryOf (pureRats data t))) s =
              lookupKey acc s := by
          cases pureRats data t with
          | nil => rfl
          | cons q qs => exact lookup_insert_other _ _ _ _ hne
        rw [hacc]
        by_cases hm : s ∈ rest ∧ pureRats data s ≠ []
        · simp [hm.1, hm.2, List.mem_cons]
        · have hm2 : ¬(s ∈ t :: rest ∧ pureRats data s ≠ []) := by
            intro hcon
            rcases hcon with ⟨hmem, hnn⟩
            rcases List.mem_cons.mp hmem with he | hmem2
            · exact hts he.symm
            · exact hm ⟨hmem2, hnn⟩
          rw [if_neg hm, if_neg hm2]

/-- C6: on well-formed history the weekly digest reports, for each stat
with at least one non-null value, high = a maximum of the values, low = a
minimum of the values, and average = their exact arithmetic mean, and it
omits any stat with zero non-null values from the digest and hence from the
published message, which is built from the digest entries alone. -/
theorem C6_weekly_digest (cfg : Config) (fs : FS) (topic stat : String)
    (hs : stat ∈ cfg.stats)
    (hwf : ∀ j ∈ fs cfg.data_file, wellFormedLine cfg j = true) :
    summarize cfg (fs cfg.data_file) =
        Except.ok (digestOf cfg (fs cfg.data_file))
    ∧ (pureRats (fs cfg.data_file) stat = [] →
        lookupKey (digestOf cfg (fs cfg.data_file)) stat = none
        ∧ stat ∉ (digestOf cfg (fs cfg.data_file)).map Prod.fst)
    ∧ (∀ v vs, pureRats (fs cfg.data_file) stat = v :: vs →
        lookupKey (digestOf cfg (fs cfg.data_file)) stat =
          some (vs.foldl max v, vs.foldl min v,
            (v :: vs).sum / ((v :: vs).length : ℚ))
        ∧ vs.foldl max v ∈ v :: vs ∧ (∀ x ∈ v :: vs, x ≤ vs.foldl max v)
        ∧ vs.foldl min v ∈ v :: vs ∧ (∀ x ∈ v :: vs, vs.foldl min v ≤ x))
    ∧ send_weekly_summary cfg fs topic ⟨none⟩ =
        ([Event.published topic "Weekly EC2 Metrics Summary"
            (formatMessage (digestOf cfg (fs cfg.data_file)))],
         Except.ok ()) := by
  have hsum := summarize_wf cfg (fs cfg.data_file) hwf
  refine ⟨hsum, ?_, ?_, ?_⟩
  · intro hpr
    have hl := digestFold_lookup (fs cfg.data_file) cfg.stats [] stat
    rw [if_neg (fun hcon => hcon.2 hpr)] at hl
    have hnone : lookupKey (digestOf cfg (fs cfg.data_file)) stat = none := by
      unfold digestOf
      rw [hl]
      rfl
    exact ⟨hnone, (lookup_eq_none_iff _ _).mp hnone⟩
  · intro v vs hpr
    have hl := digestFold_lookup (fs cfg.data_file) cfg.stats [] stat
    rw [if_pos ⟨hs, by simp [hpr]⟩, hpr] at hl
    refine ⟨?_, foldl_max_mem vs v, foldl_max_le vs v,
        foldl_min_mem vs v, foldl_min_le vs v⟩
    unfold digestOf
    rw [hl]
    rfl
  · unfold send_weekly_summary
    rw [hsum]

/-- Witness for C6: a three-record history with CPUUtilization values
10, 20, 30 (digest entry high 30, low 10, average 20) and a DiskReadOps
stat with only null values, omitted from the digest. -/
theorem C6_weekly_digest_witness :
    ("CPUUtilization" ∈ cfgTwoStats.stats)
    ∧ (∀ j ∈ fsData cfgTwoStats.data_file, wellFormedLine cfgTwoStats j = true)
    ∧ (summarize cfgTwoStats (fsData cfgTwoStats.data_file) =
          Except.ok (digestOf cfgTwoStats (fsData cfgTwoStats.data_file))
       ∧ (pureRats (fsData cfgTwoStats.data_file) "CPUUtilization" = [] →
           lookupKey (digestOf cfgTwoStats (fsData cfgTwoStats.data_file))
               "CPUUtilization" = none
           ∧ "CPUUtilization" ∉
               (digestOf cfgTwoStats (fsData cfgTwoStats.data_file)).map Prod.fst)
       ∧ (∀ v vs,
            pureRats (fsData cfgTwoStats.data_file) "CPUUtilization" = v :: vs →
            lookupKey (digestOf cfgTwoStats (fsData cfgTwoStats.data_file))
                "CPUUtilization" =
              some (vs.foldl max v, vs.foldl min v,
                (v :: vs).sum / ((v :: vs).length : ℚ))
            ∧ vs.foldl max v ∈ v :: vs ∧ (∀ x ∈ v :: vs, x ≤ vs.foldl max v)
            ∧ vs.foldl min v ∈ v :: vs ∧ (∀ x ∈ v :: vs, vs.foldl min v ≤ x))
       ∧ send_weekly_summary cfgTwoStats fsData "arn:topic" ⟨none⟩ =
           ([Event.published "arn:topic" "Weekly EC2 Metrics Summary"
               (formatMessage
                 (digestOf cfgTwoStats (fsData cfgTwoStats.data_file)))],
            Except.ok ()))
    ∧ pureRats (fsData cfgTwoStats.data_file) "CPUUtilization" = [10, 20, 30]
    ∧ pureRats (fsData cfgTwoStats.data_file) "DiskReadOps" = []
    ∧ lookupKey (digestOf cfgTwoStats (fsData cfgTwoStats.data_file))
        "CPUUtilization" = some (30, 10, 20)
    ∧ lookupKey (digestOf cfgTwoStats (fsData cfgTwoStats.data_file))
        "DiskReadOps" = none := by
  have hwfW : ∀ j ∈ fsData cfgTwoStats.data_file,
      wellFormedLine cfgTwoStats j = true := by
    intro j hj
    have hj2 : j ∈ dataEx := hj
    rcases List.mem_cons.mp hj2 with rfl | hj2
    · rfl
    rcases List.mem_cons.mp hj2 with rfl | hj2
    · rfl
    rcases List.mem_cons.mp hj2 with rfl | hj2
    · rfl
    · exact absurd hj2 (List.not_mem_nil j)
  have happ := C6_weekly_digest cfgTwoStats fsData "arn:topic" "CPUUtilization"
    (by decide) hwfW
  have hlook := happ.2.2.1 10 [20, 30] rfl
  have heq : ((([20, 30] : List ℚ).foldl max 10, ([20, 30] : List ℚ).foldl min 10,
      (((10 : ℚ) :: [20, 30]).sum / (((10 : ℚ) :: [20, 30]).length : ℚ)))) =
      ((30 : ℚ), (10 : ℚ), (20 : ℚ)) := by
    simp only [Prod.mk.injEq]
    refine ⟨by decide, by decide, by norm_num [List.sum_cons, List.sum_nil]⟩
  refine ⟨by decide, hwfW, happ, rfl, rfl, ?_, by decide⟩
  rw [hlook.1, heq]

theorem badline_lineStatValue (j : Json) (s : String)
    (hb : jsonField j "metrics" = some (Json.arr [])) :
    lineStatValue j s = Except.error "IndexError: list index out of range" := by
  cases j with
  | obj m =>
      simp only [jsonField] at hb
      have h1 : objGet (Json.obj m) "metrics" = Except.ok (Json.arr []) := by
        simp [objGet, hb]
      simp [lineStatValue, h1, Bind.bind, Except.bind, arrGet]
  | null => simp [jsonField] at hb
  | num q => simp [jsonField] at hb
  | str a => simp [jsonField] at hb
  | arr a => simp [jsonField] at hb

theorem collectValues_error (data : List Json) (s : String)
    (hbad : ∃ j ∈ data, jsonField j "metrics" = some (Json.arr [])) :
    ∃ e, collectValues data s = Except.error e := by
  induction data with
  | nil =>
      obtain ⟨j, hj, _⟩ := hbad
      cases hj
  | cons j rest ih =>
      by_cases hb : jsonField j "metrics" = some (Json.arr [])
      · refine ⟨"IndexError: list index out of range", ?_⟩
        have h1 := badline_lineStatValue j s hb
        simp [collectValues, h1, Bind.bind, Except.bind]
      · obtain ⟨j2, hj2, hb2⟩ := hbad
        rcases List.mem_cons.mp hj2 with rfl | hj3
        · exact absurd hb2 hb
        · obtain ⟨e, he⟩ := ih ⟨j2, hj3, hb2⟩
          cases hlv : lineStatValue j s with
          | error e2 =>
              exact ⟨e2, by simp [collectValues, hlv, Bind.bind, Except.bind]⟩
          | ok v =>
              exact ⟨e, by simp [collectValues, hlv, he, Bind.bind, Except.bind]⟩

/-- C10: the reporter dereferences entry[metrics][0][stats][stat] with no
guard; if any parsed line has an empty metrics list and at least one stat
is configured, the aggregation raises (IndexError, uncaught since only
ClientError is handled) and the whole report invocation fails before
anything is published. -/
theorem C10_malformed_line_aborts (cfg : Config) (fs : FS) (topic : String)
    (renv : ReportEnv) (hst : cfg.stats ≠ [])
    (hbad : ∃ j ∈ fs cfg.data_file, jsonField j "metrics" = some (Json.arr [])) :
    ∃ e, send_weekly_summary cfg fs topic renv = ([], Except.error e) := by
  obtain ⟨s0, rest, hsr⟩ := List.exists_cons_of_ne_nil hst
  obtain ⟨e, hce⟩ := collectValues_error (fs cfg.data_file) s0 hbad
  refine ⟨e, ?_⟩
  have hsum : summarize cfg (fs cfg.data_file) = Except.error e := by
    unfold summarize
    rw [hsr, List.foldlM_cons]
    simp [hce, Bind.bind, Except.bind]
  unfold send_weekly_summary
  rw [hsum]

/-- Witness for C10: a history holding one line with an empty metrics list
makes the whole report invocation fail with nothing published. -/
theorem C10_malformed_line_aborts_witness :
    (cfgEx.stats ≠ [])
    ∧ (∃ j ∈ fsBad cfgEx.data_file,
        jsonField j "metrics" = some (Json.arr []))
    ∧ ∃ e, send_weekly_summary cfgEx fsBad "arn:topic" ⟨none⟩ =
        ([], Except.error e) :=
  ⟨by decide,
   ⟨badLine, List.mem_singleton_self badLine, rfl⟩,
   C10_malformed_line_aborts cfgEx fsBad "arn:topic" ⟨none⟩ (by decide)
     ⟨badLine, List.mem_singleton_self badLine, rfl⟩⟩

end EC2Monitor
